import Mathlib

set_option maxRecDepth 20000
set_option exponentiation.threshold 5000

/-!
Shallow embedding of the `create-private-key` program (`src/main.rs`), a
Diffie-Hellman key-pair generator.  Arbitrary-precision unsigned integers
(`num_bigint::BigUint`) are embedded as `Nat`; fallible operations return
`Except String _` mirroring the `Result<_, String>` of the source; the
operating-system randomness consumed by `OsRng` is made explicit as a `Nat`
parameter.  Each definition is translated from the corresponding item of
`src/main.rs` (or, for the external big-integer library calls, from that
library's documented contract, as noted in the doc comments).
-/

/-- Rust `char::is_whitespace`: true exactly on the code points carrying the
Unicode `White_Space` property. -/
def isRustWhitespace (c : Char) : Bool :=
  let n := c.toNat
  (9 ≤ n && n ≤ 13) || n == 32 || n == 133 || n == 160 || n == 5760 ||
    (8192 ≤ n && n ≤ 8202) || n == 8232 || n == 8233 || n == 8239 ||
    n == 8287 || n == 12288

/-- Value of a single ASCII digit character in the given radix, as understood
by `num_bigint`'s digit parser: `0`-`9`, then letters (either case) starting
at value 10; characters whose value is not below the radix are invalid. -/
def digitVal (radix : Nat) (c : Char) : Option Nat :=
  let b := c.toNat
  let d : Option Nat :=
    if 48 ≤ b ∧ b ≤ 57 then some (b - 48)
    else if 97 ≤ b ∧ b ≤ 122 then some (b - 97 + 10)
    else if 65 ≤ b ∧ b ≤ 90 then some (b - 65 + 10)
    else none
  match d with
  | some d => if d < radix then some d else none
  | none => none

/-- Horner evaluation of a digit string, failing on the first character that
is not a valid digit for the radix. -/
def parseDigitsAux (radix : Nat) (acc : Nat) : List Char → Option Nat
  | [] => some acc
  | c :: cs =>
    match digitVal radix c with
    | some d => parseDigitsAux radix (acc * radix + d) cs
    | none => none

/-- Models `BigUint::parse_bytes(buf, radix)` on the documented contract:
interpret `buf` as a string of digits in the given radix, returning `none`
when the string is empty or contains a character that is not a valid digit
for that radix. -/
def parseBytes (radix : Nat) (l : List Char) : Option Nat :=
  if l = [] then none else parseDigitsAux radix 0 l

/-- The `RFC3526_MODP14_PRIME_HEX` constant of `src/main.rs`: hex digits of
the RFC 3526 MODP group 14 prime (the `concat!` of eleven string pieces). -/
def RFC3526_MODP14_PRIME_HEX : String :=
  "FFFFFFFFFFFFFFFFC90FDAA22168C234C4C6628B80DC1CD1" ++
  "29024E088A67CC74020BBEA63B139B22514A08798E3404DD" ++
  "EF9519B3CD3A431B302B0A6DF25F14374FE1356D6D51C245" ++
  "E485B576625E7EC6F44C42E9A637ED6B0BFF5CB6F406B7ED" ++
  "EE386BFB5A899FA5AE9F24117C4B1FE649286651ECE45B3D" ++
  "C2007CB8A163BF0598DA48361C55D39A69163FA8FD24CF5F" ++
  "83655D23DCA3AD961C62F356208552BB9ED529077096966D" ++
  "670C354E4ABC9804F1746C08CA18217C32905E462E36CE3B" ++
  "E39E772C180E86039B2783A2EC07A28FB5C55DF06F4C52C9" ++
  "DE2BCBF6955817183995497CEA956AE515D2261898FA0510" ++
  "15728E5A8AACAA68FFFFFFFFFFFFFFFF"

/-- The `DhGroup` enum of `src/main.rs` (single variant `Modp14`). -/
inductive DhGroup where
  | modp14
  deriving DecidableEq

/-- `DhGroup::default_prime_hex` from `src/main.rs`. -/
def DhGroup.default_prime_hex : DhGroup → String
  | DhGroup.modp14 => RFC3526_MODP14_PRIME_HEX

/-- `DhGroup::default_generator` from `src/main.rs`. -/
def DhGroup.default_generator : DhGroup → String
  | DhGroup.modp14 => "2"

/-- The character filter used by `parse_biguint`'s cleaning pass:
keep `c` iff `!c.is_whitespace() && c != underscore`. -/
def cleanKeep (c : Char) : Bool :=
  !isRustWhitespace c && c != '_'

/-- The cleaning pass of `parse_biguint`: drop every whitespace and
underscore character. -/
def cleanedChars (input : List Char) : List Char :=
  input.filter cleanKeep

/-- The radix-selection step of `parse_biguint`: strip a leading case-variant
hex marker (`0x` or `0X`) selecting base 16, otherwise base 10 on the whole
cleaned string (`strip` of the two-character marker in the source). -/
def splitRadix (cleaned : List Char) : Nat × List Char :=
  match cleaned with
  | c0 :: c1 :: rest =>
    if c0 = '0' ∧ (c1 = 'x' ∨ c1 = 'X') then (16, rest) else (10, cleaned)
  | _ => (10, cleaned)

/-- Outcome wrapping of the `BigUint::parse_bytes` call inside
`parse_biguint`: `ok` on a parsed value, the fixed message otherwise. -/
def parseOutcome (radix : Nat) (digits : List Char) : Except String Nat :=
  match parseBytes radix digits with
  | some n => Except.ok n
  | none => Except.error "failed to parse big integer"

/-- The `parse_biguint` function of `src/main.rs`. -/
def parse_biguint (input : String) : Except String Nat :=
  let cleaned := cleanedChars input.data
  if cleaned = [] then Except.error "value cannot be empty"
  else
    let rd := splitRadix cleaned
    parseOutcome rd.1 rd.2

/-- The `parse_hex_biguint` function of `src/main.rs`: drop whitespace, then
parse as base 16.  The source calls `.expect(..)` on the result, aborting the
process when the literal is corrupt; the abort is represented by `none`. -/
def parse_hex_biguint (hex : String) : Option Nat :=
  parseBytes 16 (hex.data.filter (fun c => !isRustWhitespace c))

/-- Prime resolution step of `run`: a user-supplied string goes through
`parse_biguint`; otherwise the group's embedded hex literal is decoded by
`parse_hex_biguint`.  The `.getD 0` default stands for the process-aborting
`expect` of the source; it is proved unreachable for the only defined group
(`modp14_hex_parse` below). -/
def resolve_prime (primeArg : Option String) (group : DhGroup) : Except String Nat :=
  match primeArg with
  | some s => parse_biguint s
  | none => Except.ok ((parse_hex_biguint group.default_prime_hex).getD 0)

/-- Generator resolution step of `run`: a user string, else the group's
default generator string, both through `parse_biguint`. -/
def resolve_generator (genArg : Option String) (group : DhGroup) : Except String Nat :=
  match genArg with
  | some s => parse_biguint s
  | none => parse_biguint group.default_generator

/-- The parameter-resolution and validation portion of `run` in
`src/main.rs`: resolve the prime, apply the two prime gates, resolve the
generator, apply the two generator gates, and return the validated pair. -/
def resolveAndValidate (primeArg genArg : Option String) (group : DhGroup) :
    Except String (Nat × Nat) :=
  match resolve_prime primeArg group with
  | Except.error e => Except.error e
  | Except.ok prime =>
    if prime ≤ 3 then Except.error "prime modulus must be greater than 3"
    else if prime % 2 = 0 then Except.error "prime modulus must be odd"
    else
      match resolve_generator genArg group with
      | Except.error e => Except.error e
      | Except.ok generator =>
        if generator ≤ 1 then Except.error "generator must be greater than 1"
        else if prime ≤ generator then
          Except.error "generator must be less than the prime modulus"
        else Except.ok (prime, generator)

/-- Models `RandBigInt::gen_biguint_range(low, highExclusive)` on its
documented contract: a sample lying in `[low, highExclusive)` whenever that
range is non-empty.  The randomness drawn from the generator is made explicit
as the argument `r`; as `r` ranges over `Nat`, `low + r % (highExclusive -
low)` ranges over exactly the values the sampler can return. -/
def gen_biguint_range (low highExclusive r : Nat) : Nat :=
  low + r % (highExclusive - low)

/-- The `generate_private_key` function of `src/main.rs`: sample in the range
`[2, prime - 1)`, with the consumed randomness `r` explicit. -/
def generate_private_key (prime r : Nat) : Nat :=
  gen_biguint_range 2 (prime - 1) r

/-- Square-and-multiply modular exponentiation: the reference implementation
of `BigUint::modpow(exponent, modulus)` used by `run` to derive the public
key (`y = g^x mod p`, computed without materializing `g^x`). -/
def modpow (base exponent modulus : Nat) : Nat :=
  if _h : exponent = 0 then 1 % modulus
  else if exponent % 2 = 1 then
    modpow base (exponent / 2) modulus * modpow base (exponent / 2) modulus % modulus
      * (base % modulus) % modulus
  else
    modpow base (exponent / 2) modulus * modpow base (exponent / 2) modulus % modulus
termination_by exponent
decreasing_by all_goals omega

/-- Uppercase digit character for a value below 16 (`0`-`9`, `A`-`F`), as
produced by Rust's `{:X}` formatting of `BigUint`. -/
def toUpperHexDigit (d : Nat) : Char :=
  if d < 10 then Char.ofNat (48 + d) else Char.ofNat (55 + d)

/-- Base-16 digit characters of `n`, most significant first, prepended to
`acc` (the digit-extraction loop behind `format ("{value:X}")`). -/
def hexDigitsAux (n : Nat) (acc : List Char) : List Char :=
  if _h : n = 0 then acc
  else hexDigitsAux (n / 16) (toUpperHexDigit (n % 16) :: acc)
termination_by n
decreasing_by omega

/-- Rust `format ("{value:X}")` on a `BigUint`: uppercase hex digits, no
prefix, no leading zeros, and the single digit `0` for zero. -/
def natToHexUpper (n : Nat) : String :=
  if n = 0 then "0" else String.mk (hexDigitsAux n [])

/-- The `to_even_length_hex` function of `src/main.rs`: the `{:X}` rendering,
left-padded with one `0` when its length is odd. -/
def to_even_length_hex (value : Nat) : String :=
  let hex := natToHexUpper value
  if hex.length % 2 = 0 then hex else "0" ++ hex

/-- Base-10 digit characters of `n`, most significant first, prepended to
`acc` (digit values stay below 10, so `toUpperHexDigit` yields `0`-`9`). -/
def decDigitsAux (n : Nat) (acc : List Char) : List Char :=
  if _h : n = 0 then acc
  else decDigitsAux (n / 10) (toUpperHexDigit (n % 10) :: acc)
termination_by n
decreasing_by omega

/-- `BigUint::to_str_radix(10)` as used by `run`: plain decimal digit
string, `0` for zero. -/
def to_str_radix_ten (value : Nat) : String :=
  if value = 0 then "0" else String.mk (decDigitsAux value [])

/-- The sixteen uppercase hexadecimal digit characters. -/
def hexDigitChars : List Char :=
  ['0', '1', '2', '3', '4', '5', '6', '7', '8', '9', 'A', 'B', 'C', 'D', 'E', 'F']

/-- The ten decimal digit characters. -/
def decDigitChars : List Char :=
  ['0', '1', '2', '3', '4', '5', '6', '7', '8', '9']

/-- Value of the RFC 3526 MODP group 14 prime (the 2048-bit safe prime whose
hex digits are `RFC3526_MODP14_PRIME_HEX`), written in decimal. -/
def modp14Prime : Nat :=
  32317006071311007300338913926423828248817941241140239112842009751400741706634354222619689417363569347117901737909704191754605873209195028853758986185622153212175412514901774520270235796078236248884246189477587641105928646099411723245426622522193230540919037680524235519125679715870117001058055877651038861847280257976054903569732561526167081339361799541336476559160368317896729073178384589680639671900977202194168647225871031411336429319536193471636533209717077448227988588565369208645296636077250268955505928362751121174096972998068410554359584866583291642136218231078990999448652468262416972035911852507045361090559

/-- C1: for every prime that passed validation (greater than 3 and odd) and
every value of the consumed randomness, the private key returned by
`generate_private_key` lies in the closed range `[2, p - 2]`. -/
theorem C1_private_key_range (p r : Nat) (hgt : 3 < p) (hodd : p % 2 = 1) :
    2 ≤ generate_private_key p r ∧ generate_private_key p r ≤ p - 2 := by
  unfold generate_private_key gen_biguint_range
  have h1 : r % (p - 1 - 2) < p - 1 - 2 := Nat.mod_lt _ (by omega)
  omega

/-- Witness for C1 at the concrete prime 11 with randomness 123. -/
theorem C1_private_key_range_witness :
    2 ≤ generate_private_key 11 123 ∧ generate_private_key 11 123 ≤ 11 - 2 :=
  C1_private_key_range 11 123 (by decide) (by decide)

/-- C2: the public key computed by the program, `modpow g x p`, equals
`g ^ x mod p` exactly, for every generator, private key and modulus. -/
theorem C2_public_key_exact (g x p : Nat) : modpow g x p = g ^ x % p := by
  induction x using Nat.strong_induction_on with
  | _ x ih =>
    rw [modpow]
    by_cases h0 : x = 0
    · simp [h0]
    · rw [dif_neg h0]
      have ihx := ih (x / 2) (by omega)
      by_cases h1 : x % 2 = 1
      · rw [if_pos h1, ihx]
        have hx2 : x = x / 2 + x / 2 + 1 := by omega
        conv_rhs => rw [hx2, pow_succ, pow_add]
        conv_rhs => rw [Nat.mul_mod, Nat.mul_mod (g ^ (x / 2))]
      · rw [if_neg h1, ihx]
        have hx2 : x = x / 2 + x / 2 := by omega
        conv_rhs => rw [hx2, pow_add]
        conv_rhs => rw [Nat.mul_mod]

/-- C9: under the validated precondition the sampling range `[2, p - 1)`
passed to the random generator is non-empty (the lower bound 2 is strictly
below the exclusive upper bound `p - 1`), `generate_private_key` is exactly
that range sample, and every sample lies inside the range. -/
theorem C9_sampling_range_nonempty (p : Nat) (hgt : 3 < p) (hodd : p % 2 = 1) :
    2 < p - 1 ∧
      ∀ r, generate_private_key p r = gen_biguint_range 2 (p - 1) r ∧
        2 ≤ gen_biguint_range 2 (p - 1) r ∧ gen_biguint_range 2 (p - 1) r < p - 1 := by
  refine ⟨by omega, fun r => ⟨rfl, ?_, ?_⟩⟩ <;>
    · unfold gen_biguint_range
      have h1 : r % (p - 1 - 2) < p - 1 - 2 := Nat.mod_lt _ (by omega)
      omega

/-- Witness for C9 at the concrete prime 5 (and randomness 0). -/
theorem C9_sampling_range_nonempty_witness :
    2 < 5 - 1 ∧
      ∀ r, generate_private_key 5 r = gen_biguint_range 2 (5 - 1) r ∧
        2 ≤ gen_biguint_range 2 (5 - 1) r ∧ gen_biguint_range 2 (5 - 1) r < 5 - 1 :=
  C9_sampling_range_nonempty 5 (by decide) (by decide)

/-- Every digit value below 16 maps to one of the sixteen uppercase hex
digit characters. -/
theorem toUpperHexDigit_mem_hex : ∀ d, d < 16 → toUpperHexDigit d ∈ hexDigitChars := by
  decide

/-- Every digit value below 10 maps to one of the ten decimal digit
characters. -/
theorem toUpperHexDigit_mem_dec : ∀ d, d < 10 → toUpperHexDigit d ∈ decDigitChars := by
  decide

/-- Accumulator lemma for `hexDigitsAux`. -/
theorem hexDigitsAux_eq_append (n : Nat) :
    ∀ acc, hexDigitsAux n acc = hexDigitsAux n [] ++ acc := by
  induction n using Nat.strong_induction_on with
  | _ n ih =>
    intro acc
    by_cases h : n = 0
    · subst h
      simp [hexDigitsAux]
    · conv_lhs => rw [hexDigitsAux]
      conv_rhs => rw [hexDigitsAux]
      rw [dif_neg h, dif_neg h]
      rw [ih (n / 16) (by omega) (toUpperHexDigit (n % 16) :: acc),
        ih (n / 16) (by omega) (toUpperHexDigit (n % 16) :: [])]
      simp

/-- Accumulator lemma for `decDigitsAux`. -/
theorem decDigitsAux_eq_append (n : Nat) :
    ∀ acc, decDigitsAux n acc = decDigitsAux n [] ++ acc := by
  induction n using Nat.strong_induction_on with
  | _ n ih =>
    intro acc
    by_cases h : n = 0
    · subst h
      simp [decDigitsAux]
    · conv_lhs => rw [decDigitsAux]
      conv_rhs => rw [decDigitsAux]
      rw [dif_neg h, dif_neg h]
      rw [ih (n / 10) (by omega) (toUpperHexDigit (n % 10) :: acc),
        ih (n / 10) (by omega) (toUpperHexDigit (n % 10) :: [])]
      simp

/-- Every character produced by `hexDigitsAux` is an uppercase hex digit. -/
theorem hexDigitsAux_chars (n : Nat) : ∀ c ∈ hexDigitsAux n [], c ∈ hexDigitChars := by
  induction n using Nat.strong_induction_on with
  | _ n ih =>
    intro c hc
    by_cases h : n = 0
    · subst h
      rw [hexDigitsAux] at hc
      simp at hc
    · rw [hexDigitsAux, dif_neg h, hexDigitsAux_eq_append] at hc
      rcases List.mem_append.mp hc with h1 | h1
      · exact ih (n / 16) (by omega) c h1
      · simp at h1
        subst h1
        exact toUpperHexDigit_mem_hex _ (Nat.mod_lt _ (by norm_num))

/-- Every character produced by `decDigitsAux` is a decimal digit. -/
theorem decDigitsAux_chars (n : Nat) : ∀ c ∈ decDigitsAux n [], c ∈ decDigitChars := by
  induction n using Nat.strong_induction_on with
  | _ n ih =>
    intro c hc
    by_cases h : n = 0
    · subst h
      rw [decDigitsAux] at hc
      simp at hc
    · rw [decDigitsAux, dif_neg h, decDigitsAux_eq_append] at hc
      rcases List.mem_append.mp hc with h1 | h1
      · exact ih (n / 10) (by omega) c h1
      · simp at h1
        subst h1
        exact toUpperHexDigit_mem_dec _ (Nat.mod_lt _ (by norm_num))

/-- C4: the output of `to_even_length_hex` always has even length, contains
only uppercase hexadecimal digit characters, and equals the natural `{:X}`
rendering left-padded with a single `0` exactly when that rendering has an
odd number of digits. -/
theorem C4_even_length_hex (v : Nat) :
    (to_even_length_hex v).length % 2 = 0 ∧
    (∀ c ∈ (to_even_length_hex v).data, c ∈ hexDigitChars) ∧
    ((natToHexUpper v).length % 2 = 1 →
      to_even_length_hex v = "0" ++ natToHexUpper v) ∧
    ((natToHexUpper v).length % 2 = 0 →
      to_even_length_hex v = natToHexUpper v) := by
  have hchars : ∀ c ∈ (natToHexUpper v).data, c ∈ hexDigitChars := by
    intro c hc
    by_cases h : v = 0
    · subst h
      rw [natToHexUpper] at hc
      simp at hc
      simp [hc, hexDigitChars]
    · rw [natToHexUpper, if_neg h] at hc
      exact hexDigitsAux_chars v c hc
  by_cases hpar : (natToHexUpper v).length % 2 = 0
  · have heq : to_even_length_hex v = natToHexUpper v := by
      rw [to_even_length_hex, if_pos hpar]
    refine ⟨by rw [heq]; exact hpar, by rw [heq]; exact hchars, by omega, fun _ => heq⟩
  · have heq : to_even_length_hex v = "0" ++ natToHexUpper v := by
      rw [to_even_length_hex, if_neg hpar]
    have hlen : ("0" ++ natToHexUpper v).length = 1 + (natToHexUpper v).length := by
      rw [String.length_append]
      norm_num
      rfl
    refine ⟨by rw [heq, hlen]; omega, ?_, fun _ => heq, by omega⟩
    rw [heq, String.data_append]
    intro c hc
    rcases List.mem_append.mp hc with h1 | h1
    · simp at h1
      simp [h1, hexDigitChars]
    · exact hchars c h1

/-- Witness for C4 at the concrete value 26 (hex `1A`, already even) and the
padding conjunct at 5 (hex `5`, padded to `05`). -/
theorem C4_even_length_hex_witness :
    to_even_length_hex 26 = natToHexUpper 26 ∧ to_even_length_hex 5 = "0" ++ natToHexUpper 5 :=
  ⟨(C4_even_length_hex 26).2.2.2
      (by simp [natToHexUpper, hexDigitsAux, toUpperHexDigit]; decide),
    (C4_even_length_hex 5).2.2.1
      (by simp [natToHexUpper, hexDigitsAux, toUpperHexDigit]; decide)⟩

/-- Parsing a concatenation: the accumulator after the first block feeds the
second block, and a failure in the first block is final. -/
theorem parseDigitsAux_append (radix : Nat) (xs ys : List Char) : ∀ acc,
    parseDigitsAux radix acc (xs ++ ys) =
      (parseDigitsAux radix acc xs).bind (fun a => parseDigitsAux radix a ys) := by
  induction xs with
  | nil =>
    intro acc
    simp [parseDigitsAux]
  | cons c cs ih =>
    intro acc
    rw [List.cons_append, parseDigitsAux, parseDigitsAux]
    cases digitVal radix c with
    | none => simp
    | some d => simp [ih]

/-- Uppercase hex digit characters parse back to their value in base 16. -/
theorem digitVal_toUpperHexDigit_sixteen :
    ∀ d, d < 16 → digitVal 16 (toUpperHexDigit d) = some d := by
  decide

/-- Decimal digit characters parse back to their value in base 10. -/
theorem digitVal_toUpperHexDigit_ten :
    ∀ d, d < 10 → digitVal 10 (toUpperHexDigit d) = some d := by
  decide

/-- Horner evaluation inverts the base-16 digit extraction, for any starting
accumulator. -/
theorem parseDigitsAux_hexDigitsAux (n : Nat) : ∀ acc,
    parseDigitsAux 16 acc (hexDigitsAux n []) =
      some (acc * 16 ^ (hexDigitsAux n []).length + n) := by
  induction n using Nat.strong_induction_on with
  | _ n ih =>
    intro acc
    by_cases h : n = 0
    · subst h
      simp [hexDigitsAux, parseDigitsAux]
    · conv_lhs => rw [hexDigitsAux]
      conv_rhs => rw [hexDigitsAux]
      rw [dif_neg h]
      rw [hexDigitsAux_eq_append, parseDigitsAux_append,
        ih (n / 16) (by omega), Option.some_bind]
      simp only [parseDigitsAux, digitVal_toUpperHexDigit_sixteen (n % 16) (by omega),
        List.length_append, List.length_singleton]
      have hdm : n / 16 * 16 + n % 16 = n := by omega
      congr 1
      calc (acc * 16 ^ (hexDigitsAux (n / 16) []).length + n / 16) * 16 + n % 16
          = acc * (16 ^ (hexDigitsAux (n / 16) []).length * 16) +
              (n / 16 * 16 + n % 16) := by ring
        _ = acc * 16 ^ ((hexDigitsAux (n / 16) []).length + 1) + n := by
              rw [hdm, pow_succ]

/-- Horner evaluation inverts the base-10 digit extraction, for any starting
accumulator. -/
theorem parseDigitsAux_decDigitsAux (n : Nat) : ∀ acc,
    parseDigitsAux 10 acc (decDigitsAux n []) =
      some (acc * 10 ^ (decDigitsAux n []).length + n) := by
  induction n using Nat.strong_induction_on with
  | _ n ih =>
    intro acc
    by_cases h : n = 0
    · subst h
      simp [decDigitsAux, parseDigitsAux]
    · conv_lhs => rw [decDigitsAux]
      conv_rhs => rw [decDigitsAux]
      rw [dif_neg h]
      rw [decDigitsAux_eq_append, parseDigitsAux_append,
        ih (n / 10) (by omega), Option.some_bind]
      simp only [parseDigitsAux, digitVal_toUpperHexDigit_ten (n % 10) (by omega),
        List.length_append, List.length_singleton]
      have hdm : n / 10 * 10 + n % 10 = n := by omega
      congr 1
      calc (acc * 10 ^ (decDigitsAux (n / 10) []).length + n / 10) * 10 + n % 10
          = acc * (10 ^ (decDigitsAux (n / 10) []).length * 10) +
              (n / 10 * 10 + n % 10) := by ring
        _ = acc * 10 ^ ((decDigitsAux (n / 10) []).length + 1) + n := by
              rw [hdm, pow_succ]

/-- The digit list of a non-zero number is non-empty (base 16). -/
theorem hexDigitsAux_ne_nil (n : Nat) (h : n ≠ 0) : hexDigitsAux n [] ≠ [] := by
  rw [hexDigitsAux, dif_neg h, hexDigitsAux_eq_append]
  simp

/-- The digit list of a non-zero number is non-empty (base 10). -/
theorem decDigitsAux_ne_nil (n : Nat) (h : n ≠ 0) : decDigitsAux n [] ≠ [] := by
  rw [decDigitsAux, dif_neg h, decDigitsAux_eq_append]
  simp

/-- Base-16 `parseBytes` inverts the uppercase hex rendering. -/
theorem parseBytes_natToHexUpper (n : Nat) :
    parseBytes 16 (natToHexUpper n).data = some n := by
  by_cases h : n = 0
  · subst h
    decide
  · rw [natToHexUpper, if_neg h]
    rw [parseBytes, if_neg (hexDigitsAux_ne_nil n h), parseDigitsAux_hexDigitsAux]
    simp

/-- Base-10 `parseBytes` inverts the decimal rendering. -/
theorem parseBytes_to_str_radix_ten (n : Nat) :
    parseBytes 10 (to_str_radix_ten n).data = some n := by
  by_cases h : n = 0
  · subst h
    decide
  · rw [to_str_radix_ten, if_neg h]
    rw [parseBytes, if_neg (decDigitsAux_ne_nil n h), parseDigitsAux_decDigitsAux]
    simp

/-- A single leading `0` digit does not change the base-16 parse of a
non-empty digit string. -/
theorem parseBytes_cons_zero (l : List Char) (hl : l ≠ []) :
    parseBytes 16 ('0' :: l) = parseBytes 16 l := by
  rw [parseBytes, parseBytes, if_neg hl, if_neg (by simp)]
  rw [parseDigitsAux]
  norm_num [show digitVal 16 '0' = some 0 from by decide]

/-- Base-16 `parseBytes` inverts the even-length hex formatter. -/
theorem parseBytes_to_even_length_hex (v : Nat) :
    parseBytes 16 (to_even_length_hex v).data = some v := by
  rw [to_even_length_hex]
  by_cases hpar : (natToHexUpper v).length % 2 = 0
  · rw [if_pos hpar]
    exact parseBytes_natToHexUpper v
  · rw [if_neg hpar, String.data_append]
    by_cases h : v = 0
    · subst h
      decide
    · have hdata : (natToHexUpper v).data = hexDigitsAux v [] := by
        rw [natToHexUpper, if_neg h]
      rw [show ("0" : String).data = ['0'] from rfl, hdata, List.singleton_append,
        parseBytes_cons_zero _ (hexDigitsAux_ne_nil v h)]
      rw [← hdata]
      exact parseBytes_natToHexUpper v

/-- Characters kept by the cleaning filter include every hex digit, every
decimal digit, and the two hex markers. -/
theorem cleanKeep_hexChars : ∀ c ∈ hexDigitChars, cleanKeep c = true := by
  decide

/-- Decimal digits survive the cleaning filter. -/
theorem cleanKeep_decChars : ∀ c ∈ decDigitChars, cleanKeep c = true := by
  decide

/-- Prepending a string to another concatenates the character data. -/
theorem data_zero_x (s : String) : ("0x" ++ s).data = '0' :: 'x' :: s.data := by
  cases s
  rfl

/-- Cleaning is the identity on lists of kept characters. -/
theorem cleanedChars_eq_self (l : List Char) (h : ∀ c ∈ l, cleanKeep c = true) :
    cleanedChars l = l :=
  List.filter_eq_self.mpr h

/-- Characters of the uppercase hex rendering are uppercase hex digits. -/
theorem natToHexUpper_chars (v : Nat) :
    ∀ c ∈ (natToHexUpper v).data, c ∈ hexDigitChars := by
  intro c hc
  by_cases h : v = 0
  · subst h
    rw [natToHexUpper] at hc
    simp at hc
    simp [hc, hexDigitChars]
  · rw [natToHexUpper, if_neg h] at hc
    exact hexDigitsAux_chars v c hc

/-- Characters of the even-length hex rendering are uppercase hex digits. -/
theorem to_even_length_hex_chars (v : Nat) :
    ∀ c ∈ (to_even_length_hex v).data, c ∈ hexDigitChars := by
  intro c hc
  rw [to_even_length_hex] at hc
  by_cases hpar : (natToHexUpper v).length % 2 = 0
  · rw [if_pos hpar] at hc
    exact natToHexUpper_chars v c hc
  · rw [if_neg hpar, String.data_append] at hc
    rcases List.mem_append.mp hc with h1 | h1
    · simp at h1
      simp [h1, hexDigitChars]
    · exact natToHexUpper_chars v c h1

/-- Characters of the decimal rendering are decimal digits. -/
theorem to_str_radix_ten_chars (v : Nat) :
    ∀ c ∈ (to_str_radix_ten v).data, c ∈ decDigitChars := by
  intro c hc
  by_cases h : v = 0
  · subst h
    rw [to_str_radix_ten] at hc
    simp at hc
    simp [hc, decDigitChars]
  · rw [to_str_radix_ten, if_neg h] at hc
    exact decDigitsAux_chars v c hc

/-- Unfolding of `parse_biguint` through the named stages. -/
theorem parse_biguint_eq (s : String) :
    parse_biguint s =
      (if cleanedChars s.data = [] then Except.error "value cannot be empty"
        else parseOutcome (splitRadix (cleanedChars s.data)).1
          (splitRadix (cleanedChars s.data)).2) := rfl

/-- Radix selection on a lowercase hex marker. -/
theorem splitRadix_marker_lower (rest : List Char) :
    splitRadix ('0' :: 'x' :: rest) = (16, rest) := by
  simp [splitRadix]

/-- Radix selection on an uppercase hex marker. -/
theorem splitRadix_marker_upper (rest : List Char) :
    splitRadix ('0' :: 'X' :: rest) = (16, rest) := by
  simp [splitRadix]

/-- Radix selection defaults to base 10 on every list that does not start
with a hex marker. -/
theorem splitRadix_eq_ten (l : List Char)
    (h : ∀ rest : List Char, l ≠ '0' :: 'x' :: rest ∧ l ≠ '0' :: 'X' :: rest) :
    splitRadix l = (10, l) := by
  match l with
  | [] => rfl
  | [c] => rfl
  | c1 :: c2 :: rest =>
    rw [splitRadix]
    rw [if_neg]
    rintro ⟨h0, hx⟩
    subst h0
    rcases hx with hx | hx <;> subst hx
    · exact (h rest).1 rfl
    · exact (h rest).2 rfl

/-- Decimal digit characters are never a hex-marker second character. -/
theorem decChars_not_marker : ∀ c ∈ decDigitChars, ¬(c = 'x' ∨ c = 'X') := by
  decide

/-- C5: the formatter and the parser round-trip exactly: `parse_biguint`
applied to `0x` prepended to `to_even_length_hex v` returns `v`, and
`parse_biguint` applied to the decimal rendering of `v` returns `v`. -/
theorem C5_roundtrip (v : Nat) :
    parse_biguint ("0x" ++ to_even_length_hex v) = Except.ok v ∧
    parse_biguint (to_str_radix_ten v) = Except.ok v := by
  constructor
  · have hkeep : ∀ c ∈ ('0' :: 'x' :: (to_even_length_hex v).data), cleanKeep c = true := by
      intro c hc
      rcases hc with _ | ⟨_, hc⟩
      · decide
      rcases hc with _ | ⟨_, hc⟩
      · decide
      · exact cleanKeep_hexChars c (to_even_length_hex_chars v c hc)
    have hclean : cleanedChars (("0x" ++ to_even_length_hex v).data) =
        '0' :: 'x' :: (to_even_length_hex v).data := by
      rw [data_zero_x]
      exact cleanedChars_eq_self _ hkeep
    rw [parse_biguint_eq, hclean, if_neg (by simp), splitRadix_marker_lower]
    rw [parseOutcome, parseBytes_to_even_length_hex]
  · have hkeep : ∀ c ∈ (to_str_radix_ten v).data, cleanKeep c = true := by
      intro c hc
      exact cleanKeep_decChars c (to_str_radix_ten_chars v c hc)
    have hclean : cleanedChars ((to_str_radix_ten v).data) = (to_str_radix_ten v).data :=
      cleanedChars_eq_self _ hkeep
    have hne : (to_str_radix_ten v).data ≠ [] := by
      by_cases h : v = 0
      · subst h
        decide
      · rw [to_str_radix_ten, if_neg h]
        exact decDigitsAux_ne_nil v h
    have hsplit : splitRadix ((to_str_radix_ten v).data) = (10, (to_str_radix_ten v).data) := by
      apply splitRadix_eq_ten
      intro rest
      refine ⟨fun hshape => ?_, fun hshape => ?_⟩
      · have h2 := to_str_radix_ten_chars v 'x' (by rw [hshape]; simp)
        exact decChars_not_marker 'x' h2 (Or.inl rfl)
      · have h2 := to_str_radix_ten_chars v 'X' (by rw [hshape]; simp)
        exact decChars_not_marker 'X' h2 (Or.inr rfl)
    rw [parse_biguint_eq, hclean, if_neg hne, hsplit]
    rw [parseOutcome, parseBytes_to_str_radix_ten]

/-- Horner evaluation fails exactly when some character of the list is not a
valid digit for the radix, whatever the starting accumulator. -/
theorem parseDigitsAux_eq_none_iff (radix : Nat) (l : List Char) : ∀ acc,
    (parseDigitsAux radix acc l = none ↔ ∃ c ∈ l, digitVal radix c = none) := by
  induction l with
  | nil =>
    intro acc
    simp [parseDigitsAux]
  | cons c cs ih =>
    intro acc
    rw [parseDigitsAux]
    cases hd : digitVal radix c with
    | none => simp [hd]
    | some d => simp [hd, ih]

/-- `parseBytes` fails exactly on the empty digit string or on an invalid
digit. -/
theorem parseBytes_eq_none_iff (radix : Nat) (l : List Char) :
    parseBytes radix l = none ↔ l = [] ∨ ∃ c ∈ l, digitVal radix c = none := by
  rw [parseBytes]
  by_cases h : l = []
  · simp [h]
  · rw [if_neg h]
    simp [h, parseDigitsAux_eq_none_iff]

/-- The wrapped parse reports the fixed parse-failure message exactly when
`parseBytes` fails. -/
theorem parseOutcome_eq_failed_iff (radix : Nat) (digits : List Char) :
    parseOutcome radix digits = Except.error "failed to parse big integer" ↔
      parseBytes radix digits = none := by
  rw [parseOutcome]
  cases h : parseBytes radix digits <;> simp

/-- C6: `parse_biguint` first removes whitespace and underscores (parsing a
string is the same as parsing its cleaned form), then dispatches on the
case-insensitive `0x` marker: with a marker the remainder is parsed in base
16, without one the whole cleaned string is parsed in base 10; in particular
`1_000` parses like `1000` (to 1000) and ` 0x1A ` parses to 26. -/
theorem C6_clean_then_dispatch :
    (∀ s : String, parse_biguint s = parse_biguint (String.mk (cleanedChars s.data))) ∧
    (∀ rest : List Char, (∀ c ∈ rest, cleanKeep c = true) →
      parse_biguint (String.mk ('0' :: 'x' :: rest)) = parseOutcome 16 rest ∧
      parse_biguint (String.mk ('0' :: 'X' :: rest)) = parseOutcome 16 rest) ∧
    (∀ l : List Char, (∀ c ∈ l, cleanKeep c = true) → l ≠ [] →
      (∀ rest : List Char, l ≠ '0' :: 'x' :: rest ∧ l ≠ '0' :: 'X' :: rest) →
      parse_biguint (String.mk l) = parseOutcome 10 l) ∧
    parse_biguint "1_000" = parse_biguint "1000" ∧
    parse_biguint "1_000" = Except.ok 1000 ∧
    parse_biguint " 0x1A " = Except.ok 26 := by
  refine ⟨fun s => ?_, fun rest h => ?_, fun l h hne hsh => ?_, rfl, rfl, rfl⟩
  · rw [parse_biguint_eq, parse_biguint_eq]
    have : cleanedChars ((String.mk (cleanedChars s.data)).data) = cleanedChars s.data :=
      cleanedChars_eq_self _ (fun c hc => List.of_mem_filter hc)
    rw [this]
  · have hkx : ∀ c ∈ ('0' :: 'x' :: rest), cleanKeep c = true := by
      intro c hc
      rcases hc with _ | ⟨_, hc⟩
      · decide
      rcases hc with _ | ⟨_, hc⟩
      · decide
      · exact h c hc
    have hkX : ∀ c ∈ ('0' :: 'X' :: rest), cleanKeep c = true := by
      intro c hc
      rcases hc with _ | ⟨_, hc⟩
      · decide
      rcases hc with _ | ⟨_, hc⟩
      · decide
      · exact h c hc
    constructor
    · rw [parse_biguint_eq]
      rw [show (String.mk ('0' :: 'x' :: rest)).data = '0' :: 'x' :: rest from rfl]
      rw [cleanedChars_eq_self _ hkx, if_neg (by simp), splitRadix_marker_lower]
    · rw [parse_biguint_eq]
      rw [show (String.mk ('0' :: 'X' :: rest)).data = '0' :: 'X' :: rest from rfl]
      rw [cleanedChars_eq_self _ hkX, if_neg (by simp), splitRadix_marker_upper]
  · rw [parse_biguint_eq]
    rw [show (String.mk l).data = l from rfl]
    rw [cleanedChars_eq_self _ h, if_neg hne, splitRadix_eq_ten l hsh]

/-- Witness for C6: the hex-marker dispatch applied to the concrete digit
list `1A`, together with the closed concrete conjuncts. -/
theorem C6_clean_then_dispatch_witness :
    parse_biguint (String.mk ('0' :: 'x' :: ['1', 'A'])) = parseOutcome 16 ['1', 'A'] ∧
    parse_biguint " 0x1A " = Except.ok 26 :=
  ⟨(C6_clean_then_dispatch.2.1 ['1', 'A'] (by decide)).1,
    C6_clean_then_dispatch.2.2.2.2.2⟩

/-- C7 counterexample: on the input `0x` the cleaned string is non-empty and
every remaining character after radix selection is a valid digit (there are
none), yet `parse_biguint` returns the parse-failure error instead of a
successfully parsed value. -/
theorem C7_counterexample :
    cleanedChars ("0x".data) ≠ [] ∧
    (splitRadix (cleanedChars ("0x".data))).2 = [] ∧
    (∀ c ∈ (splitRadix (cleanedChars ("0x".data))).2,
      digitVal (splitRadix (cleanedChars ("0x".data))).1 c ≠ none) ∧
    parse_biguint "0x" = Except.error "failed to parse big integer" := by
  refine ⟨by decide, by rfl, by decide, by rfl⟩

/-- C7 (amended): `parse_biguint` fails with the empty-value error exactly
when the cleaned string is empty; for a non-empty cleaned string it fails
with the parse-failure error exactly when the selected-base digit string is
empty (a bare hex marker) or contains an invalid digit for the selected
base; in every other case it returns a successfully parsed value. -/
theorem C7_parse_error_conditions (s : String) :
    (parse_biguint s = Except.error "value cannot be empty" ↔
      cleanedChars s.data = []) ∧
    (cleanedChars s.data ≠ [] →
      (parse_biguint s = Except.error "failed to parse big integer" ↔
        ((splitRadix (cleanedChars s.data)).2 = [] ∨
          ∃ c ∈ (splitRadix (cleanedChars s.data)).2,
            digitVal (splitRadix (cleanedChars s.data)).1 c = none))) ∧
    (cleanedChars s.data ≠ [] → (splitRadix (cleanedChars s.data)).2 ≠ [] →
      (∀ c ∈ (splitRadix (cleanedChars s.data)).2,
        digitVal (splitRadix (cleanedChars s.data)).1 c ≠ none) →
      ∃ n, parse_biguint s = Except.ok n) := by
  refine ⟨?_, fun hcl => ?_, fun hcl hd hv => ?_⟩
  · rw [parse_biguint_eq]
    by_cases hcl : cleanedChars s.data = []
    · simp [hcl]
    · rw [if_neg hcl]
      constructor
      · intro hout
        exfalso
        rw [parseOutcome] at hout
        cases hpb : parseBytes (splitRadix (cleanedChars s.data)).1
            (splitRadix (cleanedChars s.data)).2 with
        | some n =>
          rw [hpb] at hout
          exact absurd hout (by simp)
        | none =>
          rw [hpb] at hout
          have := Except.error.inj hout
          exact absurd this (by decide)
      · intro h
        exact absurd h hcl
  · rw [parse_biguint_eq, if_neg hcl, parseOutcome_eq_failed_iff, parseBytes_eq_none_iff]
  · cases hpb : parseBytes (splitRadix (cleanedChars s.data)).1
      (splitRadix (cleanedChars s.data)).2 with
    | some n =>
      refine ⟨n, ?_⟩
      rw [parse_biguint_eq, if_neg hcl, parseOutcome, hpb]
    | none =>
      exfalso
      rcases (parseBytes_eq_none_iff _ _).mp hpb with h | ⟨c, hc, hcv⟩
      · exact hd h
      · exact hv c hc hcv

/-- Witness for C7's amended statement at the concrete input `12`. -/
theorem C7_parse_error_conditions_witness :
    ∃ n, parse_biguint "12" = Except.ok n :=
  (C7_parse_error_conditions "12").2.2 (by decide) (by decide) (by decide)

/-- C10: on every input whose cleaned form is exactly a bare hex marker
(`0x` or `0X` with no digits following, so the remaining digit string is
empty and has no invalid character), `parse_biguint` fails with the
parse-failure error and not with the empty-value error. -/
theorem C10_bare_marker_parse_failure (s : String)
    (h : cleanedChars s.data = ['0', 'x'] ∨ cleanedChars s.data = ['0', 'X']) :
    parse_biguint s = Except.error "failed to parse big integer" ∧
    parse_biguint s ≠ Except.error "value cannot be empty" ∧
    (splitRadix (cleanedChars s.data)).2 = [] := by
  have hfail : parse_biguint s = Except.error "failed to parse big integer" := by
    rcases h with h | h <;> rw [parse_biguint_eq, h, if_neg (by decide)] <;> rfl
  refine ⟨hfail, ?_, by rcases h with h | h <;> rw [h] <;> rfl⟩
  intro hcontra
  rw [hfail] at hcontra
  have := Except.error.inj hcontra
  exact absurd this (by decide)

/-- Witness for C10 at the concrete inputs `0x` (lowercase marker) and
` 0X ` (uppercase marker reached after cleaning the whitespace away). -/
theorem C10_bare_marker_parse_failure_witness :
    parse_biguint "0x" = Except.error "failed to parse big integer" ∧
    parse_biguint " 0X " = Except.error "failed to parse big integer" :=
  ⟨(C10_bare_marker_parse_failure "0x" (Or.inl (by decide))).1,
    (C10_bare_marker_parse_failure " 0X " (Or.inr (by decide))).1⟩

/-- C3: with the prime resolved to `p`, the validation gates of `run` fire in
order, each with its exact message: `p ≤ 3` gives the greater-than-3 error;
then an even `p` gives the oddness error; then the generator is resolved (a
parse failure propagates); then `g ≤ 1` gives the greater-than-1 error; then
`p ≤ g` gives the less-than-modulus error; and when every gate passes the
validated pair is returned with no error. -/
theorem C3_validation_gate_order (pStr gStr : String) (p : Nat)
    (hp : parse_biguint pStr = Except.ok p) :
    (p ≤ 3 → resolveAndValidate (some pStr) (some gStr) DhGroup.modp14 =
      Except.error "prime modulus must be greater than 3") ∧
    (3 < p → p % 2 = 0 → resolveAndValidate (some pStr) (some gStr) DhGroup.modp14 =
      Except.error "prime modulus must be odd") ∧
    (∀ e, 3 < p → p % 2 = 1 → parse_biguint gStr = Except.error e →
      resolveAndValidate (some pStr) (some gStr) DhGroup.modp14 = Except.error e) ∧
    (∀ g, 3 < p → p % 2 = 1 → parse_biguint gStr = Except.ok g →
      ((g ≤ 1 → resolveAndValidate (some pStr) (some gStr) DhGroup.modp14 =
          Except.error "generator must be greater than 1") ∧
        (1 < g → p ≤ g → resolveAndValidate (some pStr) (some gStr) DhGroup.modp14 =
          Except.error "generator must be less than the prime modulus") ∧
        (1 < g → g < p → resolveAndValidate (some pStr) (some gStr) DhGroup.modp14 =
          Except.ok (p, g)))) := by
  have hrp : resolve_prime (some pStr) DhGroup.modp14 = Except.ok p := by
    rw [resolve_prime, hp]
  refine ⟨fun h3 => ?_, fun h3 hev => ?_, fun e h3 hodd hg => ?_,
    fun g h3 hodd hg => ⟨fun hg1 => ?_, fun hg1 hge => ?_, fun hg1 hlt => ?_⟩⟩ <;>
    simp only [resolveAndValidate, hrp]
  · rw [if_pos h3]
  · rw [if_neg (by omega), if_pos hev]
  · rw [if_neg (by omega), if_neg (by omega)]
    simp only [show resolve_generator (some gStr) DhGroup.modp14 = Except.error e from by
      rw [resolve_generator, hg]]
  · rw [if_neg (by omega), if_neg (by omega)]
    simp only [show resolve_generator (some gStr) DhGroup.modp14 = Except.ok g from by
      rw [resolve_generator, hg]]
    rw [if_pos hg1]
  · rw [if_neg (by omega), if_neg (by omega)]
    simp only [show resolve_generator (some gStr) DhGroup.modp14 = Except.ok g from by
      rw [resolve_generator, hg]]
    rw [if_neg (by omega), if_pos hge]
  · rw [if_neg (by omega), if_neg (by omega)]
    simp only [show resolve_generator (some gStr) DhGroup.modp14 = Except.ok g from by
      rw [resolve_generator, hg]]
    rw [if_neg (by omega), if_neg (by omega)]

/-- Witness for C3: the passing run at prime 11 and generator 2, and the
too-large-generator rejection at prime 11 and generator 11 (the spec's
concrete test vector). -/
theorem C3_validation_gate_order_witness :
    resolveAndValidate (some "11") (some "2") DhGroup.modp14 = Except.ok (11, 2) ∧
    resolveAndValidate (some "11") (some "11") DhGroup.modp14 =
      Except.error "generator must be less than the prime modulus" :=
  ⟨((C3_validation_gate_order "11" "2" 11 (by rfl)).2.2.2 2 (by decide) (by decide)
      (by rfl)).2.2 (by decide) (by decide),
    ((C3_validation_gate_order "11" "11" 11 (by rfl)).2.2.2 11 (by decide) (by decide)
      (by rfl)).2.1 (by decide) (by decide)⟩

/-- The embedded RFC 3526 hex literal decodes infallibly to the MODP-14
prime value. -/
theorem modp14_hex_parse :
    parse_hex_biguint RFC3526_MODP14_PRIME_HEX = some modp14Prime := by
  rfl

/-- C8: the single predefined group resolves, with no user-supplied values,
to the RFC 3526 2048-bit prime (odd and greater than 3, decoded infallibly
from the embedded hex literal) and default generator 2, and this pair passes
every validation gate. -/
theorem C8_modp14_group_valid :
    parse_hex_biguint (DhGroup.modp14.default_prime_hex) = some modp14Prime ∧
    2 ^ 2047 ≤ modp14Prime ∧ modp14Prime < 2 ^ 2048 ∧
    modp14Prime % 2 = 1 ∧ 3 < modp14Prime ∧
    DhGroup.modp14.default_generator = "2" ∧
    parse_biguint (DhGroup.modp14.default_generator) = Except.ok 2 ∧
    1 < 2 ∧ 2 < modp14Prime ∧
    resolveAndValidate none none DhGroup.modp14 = Except.ok (modp14Prime, 2) := by
  refine ⟨modp14_hex_parse, by decide, by decide, by decide, by decide, rfl, by rfl,
    by decide, by decide, ?_⟩
  simp only [resolveAndValidate,
    show resolve_prime none DhGroup.modp14 = Except.ok modp14Prime from by
      rw [resolve_prime, DhGroup.default_prime_hex, modp14_hex_parse, Option.getD_some]]
  rw [if_neg (by decide), if_neg (by decide)]
  simp only [show resolve_generator none DhGroup.modp14 = Except.ok 2 from by rfl]
  rw [if_neg (by decide), if_neg (by decide)]
